import Mathlib

/-!
Verification development for the tc-play repository.

The file gives a shallow embedding of:
* the command-line option processing, argument validation and engine
  dispatch logic of src/main.c;
* the signal handler sig_handler of src/main.c;
* two engine components that the repository keeps outside src/ (the
  hidden-volume write protector and the volume header codec), modelled
  from the specification.
-/

namespace TCPlay

/-- Registry entry for a PBKDF PRF algorithm.  The registry lookup
check_prf_algo lives outside src/, so an entry is abstracted to its name. -/
structure pbkdf_prf_algo where
  name : String
deriving DecidableEq, Repr

/-- Registry entry for a cipher chain.  The registry lookup
check_cipher_chain lives outside src/, so an entry is abstracted to its name. -/
structure tc_cipher_chain where
  name : String
deriving DecidableEq, Repr

/-- One option event as delivered by getopt_long to the switch in main
(src/main.c, lines 133 to 195).  Each constructor corresponds to one case
label; options taking an argument carry it as a String. -/
inductive CliOpt where
  | a_opt (arg : String)
  | b_opt (arg : String)
  | c_opt
  | d_opt (arg : String)
  | e_opt
  | f_opt (arg : String)
  | g_opt
  | i_opt
  | k_opt (arg : String)
  | m_opt (arg : String)
  | s_opt (arg : String)
  | v_opt
  | h_opt
  | unknown_opt
deriving DecidableEq, Repr

/-- The ways main terminates the process during option processing:
usage() exits with status 1; the help listing for `-a help` or `-b help`
and the `-v` version banner exit with status 0. -/
inductive ExitKind where
  | usage
  | help_listing
  | version_banner
deriving DecidableEq, Repr

/-- The local state of main in src/main.c: the option variables filled in
by the getopt loop.  The keyfiles and h_keyfiles lists hold, in index
order, the cells of the corresponding C arrays written so far; nkeyfiles
and n_hkeyfiles mirror the C counters. -/
structure MainState where
  dev : Option String
  sys_dev : Option String
  map_name : Option String
  keyfiles : List String
  h_keyfiles : List String
  nkeyfiles : Nat
  n_hkeyfiles : Nat
  sflag : Bool
  info_vol : Bool
  map_vol : Bool
  protect_hidden : Bool
  create_vol : Bool
  contain_hidden : Bool
  prf : Option pbkdf_prf_algo
  cipher_chain : Option tc_cipher_chain
deriving DecidableEq, Repr

/-- Initial values of the locals of main (src/main.c lines 115 to 131). -/
def initState : MainState :=
  ⟨none, none, none, [], [], 0, 0, false, false, false, false, false, false, none, none⟩

/-- One iteration of the getopt switch in main (src/main.c lines 135 to 194),
parameterised by the external registry lookups check_prf_algo and
check_cipher_chain.  An Except.error value models process exit inside the
loop (usage, the help listing, or the version banner). -/
def procOpt (cp : String → Option pbkdf_prf_algo)
    (cc : String → Option tc_cipher_chain)
    (s : MainState) : CliOpt → Except ExitKind MainState
  | CliOpt.a_opt arg =>
      match s.prf with
      | some _ => Except.error ExitKind.usage
      | none =>
          match cp arg with
          | some p => Except.ok { s with prf := some p }
          | none =>
              if arg = "help" then Except.error ExitKind.help_listing
              else Except.error ExitKind.usage
  | CliOpt.b_opt arg =>
      match s.cipher_chain with
      | some _ => Except.error ExitKind.usage
      | none =>
          match cc arg with
          | some c => Except.ok { s with cipher_chain := some c }
          | none =>
              if arg = "help" then Except.error ExitKind.help_listing
              else Except.error ExitKind.usage
  | CliOpt.c_opt => Except.ok { s with create_vol := true }
  | CliOpt.d_opt arg => Except.ok { s with dev := some arg }
  | CliOpt.e_opt => Except.ok { s with protect_hidden := true }
  | CliOpt.f_opt arg =>
      Except.ok { s with h_keyfiles := s.h_keyfiles ++ [arg],
                         n_hkeyfiles := s.n_hkeyfiles + 1 }
  | CliOpt.g_opt => Except.ok { s with contain_hidden := true }
  | CliOpt.i_opt => Except.ok { s with info_vol := true }
  | CliOpt.k_opt arg =>
      Except.ok { s with keyfiles := s.keyfiles ++ [arg],
                         nkeyfiles := s.nkeyfiles + 1 }
  | CliOpt.m_opt arg => Except.ok { s with map_vol := true, map_name := some arg }
  | CliOpt.s_opt arg => Except.ok { s with sflag := true, sys_dev := some arg }
  | CliOpt.v_opt => Except.error ExitKind.version_banner
  | CliOpt.h_opt => Except.error ExitKind.usage
  | CliOpt.unknown_opt => Except.error ExitKind.usage

/-- The whole getopt loop of main: processes the option events in order,
stopping at the first process exit. -/
def runOpts (cp : String → Option pbkdf_prf_algo)
    (cc : String → Option tc_cipher_chain) :
    List CliOpt → MainState → Except ExitKind MainState
  | [], s => Except.ok s
  | o :: rest, s =>
      match procOpt cp cc s o with
      | Except.ok s1 => runOpts cp cc rest s1
      | Except.error e => Except.error e

/-- The argument check of main (src/main.c lines 201 to 208): true exactly
when the big usage() condition is false. -/
def argsValid (s : MainState) : Bool :=
  !( !((s.map_vol || s.info_vol || s.create_vol) && s.dev.isSome) ||
     (s.map_vol && s.info_vol) ||
     (s.map_vol && s.create_vol) ||
     (s.create_vol && s.info_vol) ||
     (s.contain_hidden && !s.create_vol) ||
     (s.sflag && !s.sys_dev.isSome) ||
     (s.map_vol && !s.map_name.isSome) ||
     (!(s.protect_hidden || s.create_vol) && decide (0 < s.n_hkeyfiles)) )

/-- Modelled from the spec: the constant DEFAULT_RETRIES comes from the
header tc-play.h, which is not under src/; the spec only requires it to be
a fixed finite retry count, so the concrete value is immaterial here. -/
def DEFAULT_RETRIES : Nat := 3

/-- Modelled from the spec: the constant MAX_KEYFILES comes from the header
tc-play.h, which is not under src/; it is the declared size of the keyfiles
and h_keyfiles arrays of main, so valid indices are below it. -/
def MAX_KEYFILES : Nat := 256

/-- Argument record of the create_volume call in main (src/main.c
lines 215 to 217). -/
structure CreateArgs where
  dev : Option String
  hidden : Bool
  keyfiles : List String
  nkeyfiles : Nat
  h_keyfiles : List String
  n_hkeyfiles : Nat
  prf : Option pbkdf_prf_algo
  cipher_chain : Option tc_cipher_chain
  passphrase : Option String
  h_passphrase : Option String
  size_hidden : Nat
  interactive : Bool
deriving DecidableEq, Repr

/-- Argument record of the info_volume call in main (src/main.c
lines 222 to 224).  Note that no PRF or cipher-chain selection is among
the arguments. -/
structure InfoArgs where
  dev : Option String
  sflag : Bool
  sys_dev : Option String
  protect_hidden : Bool
  keyfiles : List String
  nkeyfiles : Nat
  h_keyfiles : List String
  n_hkeyfiles : Nat
  passphrase : Option String
  h_passphrase : Option String
  interactive : Bool
  retries : Nat
deriving DecidableEq, Repr

/-- Argument record of the map_volume call in main (src/main.c
lines 226 to 229).  Note that no PRF or cipher-chain selection is among
the arguments. -/
structure MapArgs where
  map_name : Option String
  dev : Option String
  sflag : Bool
  sys_dev : Option String
  protect_hidden : Bool
  keyfiles : List String
  nkeyfiles : Nat
  h_keyfiles : List String
  n_hkeyfiles : Nat
  passphrase : Option String
  h_passphrase : Option String
  interactive : Bool
  retries : Nat
deriving DecidableEq, Repr

/-- The engine operation main invokes, together with the exact arguments
passed at the call site. -/
inductive EngineCall where
  | create_volume (a : CreateArgs)
  | info_volume (a : InfoArgs)
  | map_volume (a : MapArgs)
deriving DecidableEq, Repr

/-- Keyfile list an engine call receives. -/
def callKeyfiles : EngineCall → List String
  | EngineCall.create_volume a => a.keyfiles
  | EngineCall.info_volume a => a.keyfiles
  | EngineCall.map_volume a => a.keyfiles

/-- Keyfile count an engine call receives. -/
def callNKeyfiles : EngineCall → Nat
  | EngineCall.create_volume a => a.nkeyfiles
  | EngineCall.info_volume a => a.nkeyfiles
  | EngineCall.map_volume a => a.nkeyfiles

/-- Hidden keyfile list an engine call receives. -/
def callHKeyfiles : EngineCall → List String
  | EngineCall.create_volume a => a.h_keyfiles
  | EngineCall.info_volume a => a.h_keyfiles
  | EngineCall.map_volume a => a.h_keyfiles

/-- Hidden keyfile count an engine call receives. -/
def callNHKeyfiles : EngineCall → Nat
  | EngineCall.create_volume a => a.n_hkeyfiles
  | EngineCall.info_volume a => a.n_hkeyfiles
  | EngineCall.map_volume a => a.n_hkeyfiles

/-- PRF selection an engine call receives; info_volume and map_volume take
no such argument, so for them this is none. -/
def callPrf : EngineCall → Option pbkdf_prf_algo
  | EngineCall.create_volume a => a.prf
  | EngineCall.info_volume _ => none
  | EngineCall.map_volume _ => none

/-- Cipher-chain selection an engine call receives; info_volume and
map_volume take no such argument, so for them this is none. -/
def callCipher : EngineCall → Option tc_cipher_chain
  | EngineCall.create_volume a => a.cipher_chain
  | EngineCall.info_volume _ => none
  | EngineCall.map_volume _ => none

/-- Interactive flag an engine call receives. -/
def callInteractive : EngineCall → Bool
  | EngineCall.create_volume a => a.interactive
  | EngineCall.info_volume a => a.interactive
  | EngineCall.map_volume a => a.interactive

/-- Retry count an engine call receives; create_volume takes none. -/
def callRetries : EngineCall → Option Nat
  | EngineCall.create_volume _ => none
  | EngineCall.info_volume a => some a.retries
  | EngineCall.map_volume a => some a.retries

/-- True exactly for a create_volume call. -/
def isCreateCall : EngineCall → Bool
  | EngineCall.create_volume _ => true
  | EngineCall.info_volume _ => false
  | EngineCall.map_volume _ => false

/-- The if / else-if dispatch of main (src/main.c lines 214 to 230): which
engine operation is invoked, with the exact arguments of the call sites. -/
def dispatch (s : MainState) : Option EngineCall :=
  if s.create_vol then
    some (EngineCall.create_volume
      ⟨s.dev, s.contain_hidden, s.keyfiles, s.nkeyfiles, s.h_keyfiles,
       s.n_hkeyfiles, s.prf, s.cipher_chain, none, none, 0, true⟩)
  else if s.info_vol then
    some (EngineCall.info_volume
      ⟨s.dev, s.sflag, s.sys_dev, s.protect_hidden, s.keyfiles, s.nkeyfiles,
       s.h_keyfiles, s.n_hkeyfiles, none, none, true, DEFAULT_RETRIES⟩)
  else if s.map_vol then
    some (EngineCall.map_volume
      ⟨s.map_name, s.dev, s.sflag, s.sys_dev, s.protect_hidden, s.keyfiles,
       s.nkeyfiles, s.h_keyfiles, s.n_hkeyfiles, none, none, true,
       DEFAULT_RETRIES⟩)
  else none

/-- The engine operation an invocation of main performs: none when the
process exits during option processing or fails the argument check. -/
def mainCall (cp : String → Option pbkdf_prf_algo)
    (cc : String → Option tc_cipher_chain) (opts : List CliOpt) :
    Option EngineCall :=
  match runOpts cp cc opts initState with
  | Except.error _ => none
  | Except.ok s => if argsValid s then dispatch s else none

/-- Whole-invocation model of main, parameterised by the engine (the three
volume operations collapsed to one result-code function on the invoked
call).  The unreachable inner none branch mirrors the uninitialised error
variable of main; under argsValid it never fires. -/
def tc_main (cp : String → Option pbkdf_prf_algo)
    (cc : String → Option tc_cipher_chain) (engine : EngineCall → Int)
    (opts : List CliOpt) : Except ExitKind Int :=
  match runOpts cp cc opts initState with
  | Except.error e => Except.error e
  | Except.ok s =>
      if argsValid s then
        match dispatch s with
        | some c => Except.ok (engine c)
        | none => Except.ok 0
      else Except.error ExitKind.usage

/-- Signal number of SIGUSR1 on the BSD platforms main targets; the
properties proved below do not depend on the concrete value. -/
def SIGUSR1 : Nat := 30

/-- Signal number of SIGINFO on the BSD platforms main targets; the
properties proved below do not depend on the concrete value. -/
def SIGINFO : Nat := 29

/-- The signal handler sig_handler of src/main.c lines 43 to 49: the
registered summary function (a state transformer on an abstract world) is
applied exactly when the signal is SIGUSR1 or SIGINFO and a summary
function is registered; otherwise the world is untouched. -/
def sig_handler {α : Type} (sig : Nat) (summary_fn : Option (α → α))
    (w : α) : α :=
  if (sig = SIGUSR1 ∨ sig = SIGINFO) ∧ summary_fn.isSome then
    (summary_fn.getD id) w
  else w

/-- Arguments of the k options of an option list, in command-line order. -/
def kArgs (opts : List CliOpt) : List String :=
  opts.filterMap fun o =>
    match o with
    | CliOpt.k_opt a => some a
    | _ => none

/-- Arguments of the f options of an option list, in command-line order. -/
def fArgs (opts : List CliOpt) : List String :=
  opts.filterMap fun o =>
    match o with
    | CliOpt.f_opt a => some a
    | _ => none

/-- True exactly for an a option. -/
def isA : CliOpt → Bool
  | CliOpt.a_opt _ => true
  | _ => false

/-- True exactly for a b option. -/
def isB : CliOpt → Bool
  | CliOpt.b_opt _ => true
  | _ => false

/-- Number of a options in an option list. -/
def countA (opts : List CliOpt) : Nat := opts.countP isA

/-- Number of b options in an option list. -/
def countB (opts : List CliOpt) : Nat := opts.countP isB

/-- Modelled from the spec: result of a write issued against the outer
mapping; the Hidden-Volume Protector (spec section 4.5) is not under src/.
A rejected write is a benign I/O error, never a crash. -/
inductive WriteResult where
  | ok
  | io_error
deriving DecidableEq, Repr

/-- Modelled from the spec: the mapping of an unlocked outer volume.  When
a hidden-volume header decrypted, protected_offset holds the byte offset
of the start of the hidden volume; otherwise it is none.  The disk is the
byte content backing the mapping. -/
structure OuterMapping where
  protected_offset : Option Nat
  disk : List Nat
deriving DecidableEq, Repr

/-- Modelled from the spec: a single byte write through the Hidden-Volume
Protector (spec section 4.5, not under src/).  A write at or beyond the
protected offset is rejected with an I/O error and the disk is untouched;
a write below it, or any write when no hidden header decrypted, is applied
unmodified. -/
def hv_write (m : OuterMapping) (off : Nat) (val : Nat) :
    WriteResult × OuterMapping :=
  match m.protected_offset with
  | some hoff =>
      if hoff ≤ off then (WriteResult.io_error, m)
      else (WriteResult.ok, { m with disk := m.disk.set off val })
  | none => (WriteResult.ok, { m with disk := m.disk.set off val })

/-- Little-endian fixed-width byte encoding of a natural number. -/
def toLE : Nat → Nat → List Nat
  | 0, _ => []
  | w + 1, n => n % 256 :: toLE w (n / 256)

/-- Value of a little-endian byte list. -/
def fromLE : List Nat → Nat
  | [] => 0
  | b :: rest => b + 256 * fromLE rest

/-- Modelled from the spec: checksum guarding the key material inside the
header (spec section 3); the concrete CRC implementation is not under
src/, so a simple executable 32-bit checksum stands for it. -/
def checksum (l : List Nat) : Nat :=
  (l.foldl (fun a b => a * 31 + b) 5381) % 4294967296

/-- Modelled from the spec: the fixed magic tag of the on-disk header. -/
def magicBytes : List Nat := [84, 82, 85, 69]

/-- Modelled from the spec: total size of the fixed-size raw header. -/
def HDR_SIZE : Nat := 512

/-- Modelled from the spec: offset of the unused reserved region of the
raw header: all fixed-width fields precede it. -/
def RESERVED_OFF : Nat := 100

/-- Modelled from the spec: length of the unused reserved region. -/
def RESERVED_LEN : Nat := 412

/-- Modelled from the spec: the decoded volume header (spec section 3);
the struct itself lives in headers outside src/.  Fields: format version,
minimal compatible version, sector size, flags, encrypted-area start
offset, encrypted-area size, and the master key material. -/
structure VolumeHeader where
  version : Nat
  min_ver : Nat
  sec_sz : Nat
  flags : Nat
  area_start : Nat
  area_size : Nat
  keys : List Nat
deriving DecidableEq, Repr

/-- Modelled from the spec: structural validity of an in-memory header:
every fixed-width field fits its width and the key material is exactly 64
bytes. -/
def validHeader (h : VolumeHeader) : Bool :=
  decide (h.version < 65536) && decide (h.min_ver < 65536) &&
  decide (h.sec_sz < 4294967296) && decide (h.flags < 4294967296) &&
  decide (h.area_start < 18446744073709551616) &&
  decide (h.area_size < 18446744073709551616) &&
  decide (h.keys.length = 64) && h.keys.all (fun b => decide (b < 256))

/-- Modelled from the spec: serialisation of the header into the raw
fixed-width, fixed-order plaintext layout, with the unused reserved region
zero-filled (spec section 4.3). -/
def serializeHeader (h : VolumeHeader) : List Nat :=
  magicBytes ++ toLE 2 h.version ++ toLE 2 h.min_ver ++
  toLE 4 (checksum h.keys) ++ toLE 8 h.area_start ++ toLE 8 h.area_size ++
  toLE 4 h.sec_sz ++ toLE 4 h.flags ++ h.keys ++ List.replicate RESERVED_LEN 0

/-- Modelled from the spec: deserialisation of the raw plaintext layout;
checks the magic tag and the key-material checksum, returning none on any
mismatch (spec section 4.3). -/
def deserializeHeader (raw : List Nat) : Option VolumeHeader :=
  if raw.length = HDR_SIZE then
    let keys := (raw.drop 36).take 64
    if raw.take 4 = magicBytes ∧ fromLE ((raw.drop 8).take 4) = checksum keys
    then
      some ⟨fromLE ((raw.drop 4).take 2), fromLE ((raw.drop 6).take 2),
            fromLE ((raw.drop 28).take 4), fromLE ((raw.drop 32).take 4),
            fromLE ((raw.drop 12).take 8), fromLE ((raw.drop 20).take 8),
            keys⟩
    else none
  else none

/-- Modelled from the spec: an executable seed mixing a (PRF, cipher
cascade) pair into the keystream of the header encryption; the real
derivation and cascade live outside src/, and spec section 4.2 only
requires encryption and decryption with the same pair to be mutual
inverses. -/
def pairSeed (prf : pbkdf_prf_algo) (chain : tc_cipher_chain) : Nat :=
  (prf.name.toList.foldl (fun a c => a * 131 + c.toNat) 7) * 65599 +
  (chain.name.toList.foldl (fun a c => a * 131 + c.toNat) 13)

/-- Modelled from the spec: the header encryption layer as a seed-keyed
byte stream cipher; applying it twice with the same seed is the identity,
matching the inverse property of spec section 4.2. -/
def xorStream (seed : Nat) (i : Nat) : List Nat → List Nat
  | [] => []
  | b :: rest => Nat.xor b ((seed + 97 * i) % 256) :: xorStream seed (i + 1) rest

/-- Modelled from the spec: encoding of a header for a given (PRF, cipher
cascade) pair: serialise, then encrypt with the pair (spec section 4.3). -/
def encodeHeader (prf : pbkdf_prf_algo) (chain : tc_cipher_chain)
    (h : VolumeHeader) : List Nat :=
  xorStream (pairSeed prf chain) 0 (serializeHeader h)

/-- Modelled from the spec: decoding of raw header bytes for a given
(PRF, cipher cascade) pair: decrypt with the pair, then deserialise and
validate (spec section 4.3). -/
def decodeHeader (prf : pbkdf_prf_algo) (chain : tc_cipher_chain)
    (raw : List Nat) : Option VolumeHeader :=
  deserializeHeader (xorStream (pairSeed prf chain) 0 raw)

/- Concrete instances used by witnesses and counterexamples. -/

/-- Concrete disk content used in the C1 witness. -/
def disk0 : List Nat := List.replicate 200 0

/-- Outer mapping with a decrypted hidden header at byte offset 100. -/
def mapping0 : OuterMapping := ⟨some 100, disk0⟩

/-- Outer mapping with no decrypted hidden header. -/
def mapping1 : OuterMapping := ⟨none, disk0⟩

/-- Concrete PRF registry entry used in witnesses. -/
def prf0 : pbkdf_prf_algo := ⟨"SHA512"⟩

/-- Concrete cipher-chain registry entry used in witnesses. -/
def chain0 : tc_cipher_chain := ⟨"AES-256-XTS"⟩

/-- Concrete valid volume header used in the C2 witness. -/
def hdr0 : VolumeHeader := ⟨5, 7, 512, 0, 131072, 1048576, List.replicate 64 3⟩

/-- Registry lookup that accepts nothing: every name misses the table. -/
def cpNone : String → Option pbkdf_prf_algo := fun _ => none

/-- Cipher registry lookup that accepts nothing. -/
def ccNone : String → Option tc_cipher_chain := fun _ => none

/-- Registry lookup accepting exactly the name SHA512. -/
def cpSHA : String → Option pbkdf_prf_algo := fun a =>
  if a = "SHA512" then some prf0 else none

/-- Engine stub returning result code 0 on every call. -/
def engine0 : EngineCall → Int := fun _ => 0

/-- Concrete device path used in witnesses. -/
def devPath : String := "/dev/da0s1"

/-- Concrete keyfile paths used in witnesses. -/
def kf1 : String := "first.key"

/-- Second concrete keyfile path used in witnesses. -/
def kf2 : String := "second.key"

/-- Name of the SHA512 PRF as given on the command line. -/
def shaName : String := "SHA512"

/-- The string help, as given to the a option to request the listing. -/
def helpName : String := "help"

/-- Concrete mapping name used in witnesses. -/
def mapName : String := "truecrypt1"

/-- Option events of an info invocation: tc-play -i -d devPath. -/
def optsInfo : List CliOpt := [CliOpt.i_opt, CliOpt.d_opt devPath]

/-- Option events of an info invocation with two keyfiles. -/
def optsInfoK : List CliOpt :=
  [CliOpt.i_opt, CliOpt.d_opt devPath, CliOpt.k_opt kf1, CliOpt.k_opt kf2]

/-- Option events of an info invocation with an accepted a option. -/
def optsInfoA : List CliOpt :=
  [CliOpt.i_opt, CliOpt.d_opt devPath, CliOpt.a_opt shaName]

/-- Option events of a create invocation with an accepted a option. -/
def optsCreateA : List CliOpt :=
  [CliOpt.c_opt, CliOpt.d_opt devPath, CliOpt.a_opt shaName]

/-- Option events of a map invocation: tc-play -m mapName -d devPath. -/
def optsMap : List CliOpt := [CliOpt.m_opt mapName, CliOpt.d_opt devPath]

/-- Option events with a duplicated a option whose first argument is
help: tc-play -a help -a SHA512. -/
def optsDupA : List CliOpt := [CliOpt.a_opt helpName, CliOpt.a_opt shaName]

/-- The state of main after the option loop of an info invocation
tc-play -i -d devPath. -/
def sInfo : MainState :=
  ⟨some devPath, none, none, [], [], 0, 0, false, true, false, false, false,
   false, none, none⟩

/-- The engine call of the invocation tc-play -i -d devPath. -/
def infoCall0 : EngineCall :=
  EngineCall.info_volume
    ⟨some devPath, false, none, false, [], 0, [], 0, none, none, true,
     DEFAULT_RETRIES⟩

/-- The engine call of the invocation with two keyfiles. -/
def infoCallK : EngineCall :=
  EngineCall.info_volume
    ⟨some devPath, false, none, false, [kf1, kf2], 2, [], 0, none, none,
     true, DEFAULT_RETRIES⟩

/-- The engine call of the info invocation with an accepted a option: the
parsed PRF selection is nowhere among its arguments. -/
def infoCallA : EngineCall :=
  EngineCall.info_volume
    ⟨some devPath, false, none, false, [], 0, [], 0, none, none, true,
     DEFAULT_RETRIES⟩

/-- The engine call of the create invocation with an accepted a option. -/
def createCallA : EngineCall :=
  EngineCall.create_volume
    ⟨some devPath, false, [], 0, [], 0, some prf0, none, none, none, 0, true⟩

theorem toLE_length : ∀ (w n : Nat), (toLE w n).length = w
  | 0, _ => rfl
  | w + 1, n => by simp [toLE, toLE_length w (n / 256)]

theorem fromLE_toLE (w n : Nat) : fromLE (toLE w n) = n % 256 ^ w := by
  induction w generalizing n with
  | zero => simp [toLE, fromLE, Nat.mod_one]
  | succ k ih =>
      have hp : (256 : Nat) ^ (k + 1) = 256 * 256 ^ k := by
        rw [pow_succ, mul_comm]
      simp only [toLE, fromLE, ih, hp, Nat.mod_mul]

theorem fromLE_toLE_of_lt (w n : Nat) (h : n < 256 ^ w) :
    fromLE (toLE w n) = n := by
  rw [fromLE_toLE, Nat.mod_eq_of_lt h]

theorem xorStream_xorStream (seed : Nat) :
    ∀ (i : Nat) (l : List Nat), xorStream seed i (xorStream seed i l) = l
  | _, [] => rfl
  | i, b :: rest => by
      have hx : Nat.xor (Nat.xor b ((seed + 97 * i) % 256))
          ((seed + 97 * i) % 256) = b := by
        show b ^^^ _ ^^^ _ = b
        rw [Nat.xor_assoc, Nat.xor_self, Nat.xor_zero]
      simp [xorStream, hx, xorStream_xorStream seed (i + 1) rest]

theorem checksum_lt (l : List Nat) : checksum l < 4294967296 :=
  Nat.mod_lt _ (by norm_num)

theorem deserialize_serialize (h : VolumeHeader) (hv : validHeader h = true) :
    deserializeHeader (serializeHeader h) = some h := by
  have hv' := hv
  simp only [validHeader, Bool.and_eq_true, decide_eq_true_eq] at hv'
  obtain ⟨⟨⟨⟨⟨⟨⟨h1, h2⟩, h3⟩, h4⟩, h5⟩, h6⟩, hk⟩, -⟩ := hv'
  have hm4 : magicBytes.length = 4 := rfl
  have hlen : (serializeHeader h).length = HDR_SIZE := by
    simp only [serializeHeader, List.length_append, toLE_length, hk,
      List.length_replicate, hm4, HDR_SIZE, RESERVED_LEN]
  have hd4 : (serializeHeader h).drop 4 =
      toLE 2 h.version ++ (toLE 2 h.min_ver ++ (toLE 4 (checksum h.keys) ++
      (toLE 8 h.area_start ++ (toLE 8 h.area_size ++ (toLE 4 h.sec_sz ++
      (toLE 4 h.flags ++ (h.keys ++ List.replicate RESERVED_LEN 0))))))) := by
    rw [serializeHeader]
    exact List.drop_left' hm4
  have hd6 : (serializeHeader h).drop 6 =
      toLE 2 h.min_ver ++ (toLE 4 (checksum h.keys) ++
      (toLE 8 h.area_start ++ (toLE 8 h.area_size ++ (toLE 4 h.sec_sz ++
      (toLE 4 h.flags ++ (h.keys ++ List.replicate RESERVED_LEN 0)))))) := by
    rw [← List.drop_drop 2 4, hd4]
    exact List.drop_left' (toLE_length 2 h.version)
  have hd8 : (serializeHeader h).drop 8 =
      toLE 4 (checksum h.keys) ++
      (toLE 8 h.area_start ++ (toLE 8 h.area_size ++ (toLE 4 h.sec_sz ++
      (toLE 4 h.flags ++ (h.keys ++ List.replicate RESERVED_LEN 0))))) := by
    rw [← List.drop_drop 2 6, hd6]
    exact List.drop_left' (toLE_length 2 h.min_ver)
  have hd12 : (serializeHeader h).drop 12 =
      toLE 8 h.area_start ++ (toLE 8 h.area_size ++ (toLE 4 h.sec_sz ++
      (toLE 4 h.flags ++ (h.keys ++ List.replicate RESERVED_LEN 0)))) := by
    rw [← List.drop_drop 4 8, hd8]
    exact List.drop_left' (toLE_length 4 (checksum h.keys))
  have hd20 : (serializeHeader h).drop 20 =
      toLE 8 h.area_size ++ (toLE 4 h.sec_sz ++
      (toLE 4 h.flags ++ (h.keys ++ List.replicate RESERVED_LEN 0))) := by
    rw [← List.drop_drop 8 12, hd12]
    exact List.drop_left' (toLE_length 8 h.area_start)
  have hd28 : (serializeHeader h).drop 28 =
      toLE 4 h.sec_sz ++
      (toLE 4 h.flags ++ (h.keys ++ List.replicate RESERVED_LEN 0)) := by
    rw [← List.drop_drop 8 20, hd20]
    exact List.drop_left' (toLE_length 8 h.area_size)
  have hd32 : (serializeHeader h).drop 32 =
      toLE 4 h.flags ++ (h.keys ++ List.replicate RESERVED_LEN 0) := by
    rw [← List.drop_drop 4 28, hd28]
    exact List.drop_left' (toLE_length 4 h.sec_sz)
  have hd36 : (serializeHeader h).drop 36 =
      h.keys ++ List.replicate RESERVED_LEN 0 := by
    rw [← List.drop_drop 4 32, hd32]
    exact List.drop_left' (toLE_length 4 h.flags)
  have hkeys : ((serializeHeader h).drop 36).take 64 = h.keys := by
    rw [hd36]
    exact List.take_left' hk
  have hmagic : (serializeHeader h).take 4 = magicBytes := by
    rw [serializeHeader]
    exact List.take_left' hm4
  have hcrc : fromLE (((serializeHeader h).drop 8).take 4) = checksum h.keys := by
    rw [hd8, List.take_left' (toLE_length 4 (checksum h.keys))]
    exact fromLE_toLE_of_lt 4 _ (checksum_lt h.keys)
  have hver : fromLE (((serializeHeader h).drop 4).take 2) = h.version := by
    rw [hd4, List.take_left' (toLE_length 2 h.version)]
    exact fromLE_toLE_of_lt 2 _ h1
  have hmin : fromLE (((serializeHeader h).drop 6).take 2) = h.min_ver := by
    rw [hd6, List.take_left' (toLE_length 2 h.min_ver)]
    exact fromLE_toLE_of_lt 2 _ h2
  have hsec : fromLE (((serializeHeader h).drop 28).take 4) = h.sec_sz := by
    rw [hd28, List.take_left' (toLE_length 4 h.sec_sz)]
    exact fromLE_toLE_of_lt 4 _ h3
  have hfl : fromLE (((serializeHeader h).drop 32).take 4) = h.flags := by
    rw [hd32, List.take_left' (toLE_length 4 h.flags)]
    exact fromLE_toLE_of_lt 4 _ h4
  have hst : fromLE (((serializeHeader h).drop 12).take 8) = h.area_start := by
    rw [hd12, List.take_left' (toLE_length 8 h.area_start)]
    exact fromLE_toLE_of_lt 8 _ h5
  have hsz : fromLE (((serializeHeader h).drop 20).take 8) = h.area_size := by
    rw [hd20, List.take_left' (toLE_length 8 h.area_size)]
    exact fromLE_toLE_of_lt 8 _ h6
  simp only [deserializeHeader, hlen, if_pos, hkeys]
  rw [if_pos ⟨hmagic, by rw [hcrc]⟩]
  rw [hver, hmin, hsec, hfl, hst, hsz]

theorem serialize_reserved (h : VolumeHeader) (hk : h.keys.length = 64) :
    (serializeHeader h).drop RESERVED_OFF = List.replicate RESERVED_LEN 0 := by
  have hsplit : serializeHeader h =
      (magicBytes ++ (toLE 2 h.version ++ (toLE 2 h.min_ver ++
      (toLE 4 (checksum h.keys) ++ (toLE 8 h.area_start ++
      (toLE 8 h.area_size ++ (toLE 4 h.sec_sz ++
      (toLE 4 h.flags ++ h.keys)))))))) ++ List.replicate RESERVED_LEN 0 := by
    simp [serializeHeader, List.append_assoc]
  rw [RESERVED_OFF, hsplit]
  exact List.drop_left' (by
    simp only [List.length_append, toLE_length, hk, magicBytes,
      List.length_cons, List.length_nil])

theorem kArgs_cons (o : CliOpt) (rest : List CliOpt) :
    kArgs (o :: rest) = kArgs [o] ++ kArgs rest := by
  cases o <;> simp [kArgs]

theorem fArgs_cons (o : CliOpt) (rest : List CliOpt) :
    fArgs (o :: rest) = fArgs [o] ++ fArgs rest := by
  cases o <;> simp [fArgs]

theorem countA_cons (o : CliOpt) (rest : List CliOpt) :
    countA (o :: rest) = (if isA o = true then 1 else 0) + countA rest := by
  simp [countA, List.countP_cons, Nat.add_comm]

theorem countB_cons (o : CliOpt) (rest : List CliOpt) :
    countB (o :: rest) = (if isB o = true then 1 else 0) + countB rest := by
  simp [countB, List.countP_cons, Nat.add_comm]

/-- What one successful iteration of the getopt switch does to the state:
keyfile lists grow by exactly the option payload, the PRF and cipher
selections change only on an a or b option, and an a or b option succeeds
only from an empty selection with an accepted name. -/
theorem procOpt_ok_spec (cp : String → Option pbkdf_prf_algo)
    (cc : String → Option tc_cipher_chain) (s : MainState) (o : CliOpt)
    (s1 : MainState) (h : procOpt cp cc s o = Except.ok s1) :
    s1.keyfiles = s.keyfiles ++ kArgs [o] ∧
    s1.nkeyfiles = s.nkeyfiles + (kArgs [o]).length ∧
    s1.h_keyfiles = s.h_keyfiles ++ fArgs [o] ∧
    s1.n_hkeyfiles = s.n_hkeyfiles + (fArgs [o]).length ∧
    (isA o = false → s1.prf = s.prf) ∧
    (isA o = true → s.prf = none ∧ s1.prf.isSome = true) ∧
    (isB o = false → s1.cipher_chain = s.cipher_chain) ∧
    (isB o = true → s.cipher_chain = none ∧ s1.cipher_chain.isSome = true) ∧
    (∀ a, o = CliOpt.a_opt a → ∃ p, cp a = some p ∧ s1.prf = some p) ∧
    (∀ b, o = CliOpt.b_opt b → ∃ q, cc b = some q ∧ s1.cipher_chain = some q) := by
  cases o with
  | a_opt arg =>
      cases hp : s.prf with
      | some p0 => simp [procOpt, hp] at h
      | none =>
          cases hc : cp arg with
          | none =>
              simp only [procOpt, hp, hc] at h
              split at h <;> simp at h
          | some p =>
              simp only [procOpt, hp, hc, Except.ok.injEq] at h
              subst h
              refine ⟨by simp [kArgs], by simp [kArgs], by simp [fArgs],
                by simp [fArgs], by simp [isA], fun _ => ⟨rfl, rfl⟩,
                fun _ => rfl, by simp [isB], ?_,
                fun b hb => absurd hb (by simp)⟩
              intro a ha
              injection ha with ha1
              subst ha1
              exact ⟨p, hc, rfl⟩
  | b_opt arg =>
      cases hp : s.cipher_chain with
      | some q0 => simp [procOpt, hp] at h
      | none =>
          cases hc : cc arg with
          | none =>
              simp only [procOpt, hp, hc] at h
              split at h <;> simp at h
          | some q =>
              simp only [procOpt, hp, hc, Except.ok.injEq] at h
              subst h
              refine ⟨by simp [kArgs], by simp [kArgs], by simp [fArgs],
                by simp [fArgs], fun _ => rfl, by simp [isA],
                by simp [isB], fun _ => ⟨rfl, rfl⟩,
                fun a ha => absurd ha (by simp), ?_⟩
              intro b hb
              injection hb with hb1
              subst hb1
              exact ⟨q, hc, rfl⟩
  | c_opt =>
      simp only [procOpt, Except.ok.injEq] at h
      subst h
      simp [kArgs, fArgs, isA, isB]
  | d_opt arg =>
      simp only [procOpt, Except.ok.injEq] at h
      subst h
      simp [kArgs, fArgs, isA, isB]
  | e_opt =>
      simp only [procOpt, Except.ok.injEq] at h
      subst h
      simp [kArgs, fArgs, isA, isB]
  | f_opt arg =>
      simp only [procOpt, Except.ok.injEq] at h
      subst h
      simp [kArgs, fArgs, isA, isB]
  | g_opt =>
      simp only [procOpt, Except.ok.injEq] at h
      subst h
      simp [kArgs, fArgs, isA, isB]
  | i_opt =>
      simp only [procOpt, Except.ok.injEq] at h
      subst h
      simp [kArgs, fArgs, isA, isB]
  | k_opt arg =>
      simp only [procOpt, Except.ok.injEq] at h
      subst h
      simp [kArgs, fArgs, isA, isB]
  | m_opt arg =>
      simp only [procOpt, Except.ok.injEq] at h
      subst h
      simp [kArgs, fArgs, isA, isB]
  | s_opt arg =>
      simp only [procOpt, Except.ok.injEq] at h
      subst h
      simp [kArgs, fArgs, isA, isB]
  | v_opt => simp [procOpt] at h
  | h_opt => simp [procOpt] at h
  | unknown_opt => simp [procOpt] at h

/-- What a whole successful run of the getopt loop does to the state: the
keyfile lists collect exactly the k and f payloads in command-line order,
at most one a and one b option can be processed, and the final PRF and
cipher selections reflect exactly the accepted lookups. -/
theorem runOpts_ok_spec (cp : String → Option pbkdf_prf_algo)
    (cc : String → Option tc_cipher_chain) :
    ∀ (opts : List CliOpt) (s0 s : MainState),
    runOpts cp cc opts s0 = Except.ok s →
    s.keyfiles = s0.keyfiles ++ kArgs opts ∧
    s.nkeyfiles = s0.nkeyfiles + (kArgs opts).length ∧
    s.h_keyfiles = s0.h_keyfiles ++ fArgs opts ∧
    s.n_hkeyfiles = s0.n_hkeyfiles + (fArgs opts).length ∧
    (countA opts = 0 → s.prf = s0.prf) ∧
    (countB opts = 0 → s.cipher_chain = s0.cipher_chain) ∧
    (s0.prf.isSome = true → countA opts = 0) ∧
    (s0.cipher_chain.isSome = true → countB opts = 0) ∧
    countA opts ≤ 1 ∧ countB opts ≤ 1 ∧
    (∀ a, CliOpt.a_opt a ∈ opts →
      s0.prf = none ∧ ∃ p, cp a = some p ∧ s.prf = some p) ∧
    (∀ b, CliOpt.b_opt b ∈ opts →
      s0.cipher_chain = none ∧ ∃ q, cc b = some q ∧ s.cipher_chain = some q) := by
  intro opts
  induction opts with
  | nil =>
      intro s0 s h
      simp only [runOpts, Except.ok.injEq] at h
      subst h
      simp [kArgs, fArgs, countA, countB]
  | cons o rest ih =>
      intro s0 s h
      rw [runOpts] at h
      cases hstep : procOpt cp cc s0 o with
      | error e => rw [hstep] at h; simp at h
      | ok s1 =>
          rw [hstep] at h
          obtain ⟨r1, r2, r3, r4, r5, r6, r7, r8, r9, r10, r11, r12⟩ :=
            ih s1 s h
          obtain ⟨q1, q2, q3, q4, q5, q6, q7, q8, q9, q10⟩ :=
            procOpt_ok_spec cp cc s0 o s1 hstep
          have hkc := kArgs_cons o rest
          have hfc := fArgs_cons o rest
          have hac := countA_cons o rest
          have hbc := countB_cons o rest
          have ekc := congrArg List.length hkc
          have efc := congrArg List.length hfc
          rw [List.length_append] at ekc efc
          refine ⟨?_, ?_, ?_, ?_, ?_, ?_, ?_, ?_, ?_, ?_, ?_, ?_⟩
          · rw [hkc, r1, q1, List.append_assoc]
          · omega
          · rw [hfc, r3, q3, List.append_assoc]
          · omega
          · intro h0
            rw [hac] at h0
            cases hA : isA o with
            | true => rw [hA] at h0; simp at h0
            | false =>
                rw [hA] at h0
                simp at h0
                rw [r5 h0, q5 hA]
          · intro h0
            rw [hbc] at h0
            cases hB : isB o with
            | true => rw [hB] at h0; simp at h0
            | false =>
                rw [hB] at h0
                simp at h0
                rw [r6 h0, q7 hB]
          · intro hs0
            rw [hac]
            cases hA : isA o with
            | true =>
                obtain ⟨hnone, -⟩ := q6 hA
                rw [hnone] at hs0
                simp at hs0
            | false =>
                have h1 : s1.prf.isSome = true := by rw [q5 hA]; exact hs0
                have h2 := r7 h1
                simp [h2]
          · intro hs0
            rw [hbc]
            cases hB : isB o with
            | true =>
                obtain ⟨hnone, -⟩ := q8 hB
                rw [hnone] at hs0
                simp at hs0
            | false =>
                have h1 : s1.cipher_chain.isSome = true := by
                  rw [q7 hB]; exact hs0
                have h2 := r8 h1
                simp [h2]
          · rw [hac]
            cases hA : isA o with
            | true =>
                obtain ⟨-, hs1⟩ := q6 hA
                have h2 := r7 hs1
                simp [h2]
            | false => simpa using r9
          · rw [hbc]
            cases hB : isB o with
            | true =>
                obtain ⟨-, hs1⟩ := q8 hB
                have h2 := r8 hs1
                simp [h2]
            | false => simpa using r10
          · intro a ha
            rcases List.mem_cons.mp ha with heq | hmem
            · subst heq
              obtain ⟨p, hcp, hs1⟩ := q9 a rfl
              obtain ⟨hnone, hs1some⟩ := q6 rfl
              have hrest0 : countA rest = 0 := r7 (by rw [hs1]; rfl)
              exact ⟨hnone, p, hcp, by rw [r5 hrest0, hs1]⟩
            · obtain ⟨hs1none, p, hcp, hfin⟩ := r11 a hmem
              cases hA : isA o with
              | true =>
                  obtain ⟨-, hs1some⟩ := q6 hA
                  rw [hs1none] at hs1some
                  simp at hs1some
              | false => exact ⟨by rw [← q5 hA, hs1none], p, hcp, hfin⟩
          · intro b hb
            rcases List.mem_cons.mp hb with heq | hmem
            · subst heq
              obtain ⟨q, hcq, hs1⟩ := q10 b rfl
              obtain ⟨hnone, hs1some⟩ := q8 rfl
              have hrest0 : countB rest = 0 := r8 (by rw [hs1]; rfl)
              exact ⟨hnone, q, hcq, by rw [r6 hrest0, hs1]⟩
            · obtain ⟨hs1none, q, hcq, hfin⟩ := r12 b hmem
              cases hB : isB o with
              | true =>
                  obtain ⟨-, hs1some⟩ := q8 hB
                  rw [hs1none] at hs1some
                  simp at hs1some
              | false => exact ⟨by rw [← q7 hB, hs1none], q, hcq, hfin⟩

/-- What passing the argument check of main means, spelled out: a device
is present, at least one mode is selected, no two modes are selected
together, the hidden flag needs create mode, system encryption needs a
system device, map mode needs a mapping name, and hidden keyfiles need
protect-hidden or create mode. -/
theorem argsValid_spec (s : MainState) (h : argsValid s = true) :
    s.dev.isSome = true ∧
    (s.map_vol = true ∨ s.info_vol = true ∨ s.create_vol = true) ∧
    ¬(s.map_vol = true ∧ s.info_vol = true) ∧
    ¬(s.map_vol = true ∧ s.create_vol = true) ∧
    ¬(s.create_vol = true ∧ s.info_vol = true) ∧
    (s.contain_hidden = true → s.create_vol = true) ∧
    (s.sflag = true → s.sys_dev.isSome = true) ∧
    (s.map_vol = true → s.map_name.isSome = true) ∧
    (0 < s.n_hkeyfiles → s.protect_hidden = true ∨ s.create_vol = true) := by
  simp only [argsValid, Bool.not_eq_true', Bool.or_eq_false_iff,
    Bool.and_eq_false_iff, Bool.not_eq_false', Bool.not_eq_true,
    decide_eq_false_iff_not, Bool.and_eq_true, Bool.or_eq_true] at h
  obtain ⟨⟨⟨⟨⟨⟨⟨⟨hmodes, hdev⟩, hmi⟩, hmc⟩, hci⟩, hgh⟩, hsf⟩, hmn⟩, hhk⟩ := h
  refine ⟨hdev, ?_, ?_, ?_, ?_, ?_, ?_, ?_, ?_⟩
  · rcases hmodes with (h1 | h1) | h1
    · exact Or.inl h1
    · exact Or.inr (Or.inl h1)
    · exact Or.inr (Or.inr h1)
  · rintro ⟨h1, h2⟩
    rcases hmi with h3 | h3 <;> simp_all
  · rintro ⟨h1, h2⟩
    rcases hmc with h3 | h3 <;> simp_all
  · rintro ⟨h1, h2⟩
    rcases hci with h3 | h3 <;> simp_all
  · intro h1
    rcases hgh with h3 | h3 <;> simp_all
  · intro h1
    rcases hsf with h3 | h3 <;> simp_all
  · intro h1
    rcases hmn with h3 | h3 <;> simp_all
  · intro h1
    rcases hhk with h3 | h3
    · exact h3
    · exact absurd h1 h3

/-- Every engine call produced by the dispatch of main carries the state
variables of main verbatim, the interactive flag set, and, for the two
probing operations, the DEFAULT_RETRIES retry bound and no PRF or
cipher-chain selection. -/
theorem dispatch_spec (s : MainState) (c : EngineCall)
    (h : dispatch s = some c) :
    callKeyfiles c = s.keyfiles ∧ callNKeyfiles c = s.nkeyfiles ∧
    callHKeyfiles c = s.h_keyfiles ∧ callNHKeyfiles c = s.n_hkeyfiles ∧
    callInteractive c = true ∧
    (isCreateCall c = true →
      callPrf c = s.prf ∧ callCipher c = s.cipher_chain ∧
      s.create_vol = true) ∧
    (isCreateCall c = false →
      callPrf c = none ∧ callCipher c = none ∧
      callRetries c = some DEFAULT_RETRIES ∧ s.create_vol = false) := by
  unfold dispatch at h
  split_ifs at h with h1 h2 h3
  · simp only [Option.some.injEq] at h
    subst h
    simp [callKeyfiles, callNKeyfiles, callHKeyfiles, callNHKeyfiles,
      callInteractive, callPrf, callCipher, callRetries, isCreateCall, h1]
  · simp only [Option.some.injEq] at h
    subst h
    rw [Bool.not_eq_true] at h1
    simp [callKeyfiles, callNKeyfiles, callHKeyfiles, callNHKeyfiles,
      callInteractive, callPrf, callCipher, callRetries, isCreateCall, h1]
  · simp only [Option.some.injEq] at h
    subst h
    rw [Bool.not_eq_true] at h1
    simp [callKeyfiles, callNKeyfiles, callHKeyfiles, callNHKeyfiles,
      callInteractive, callPrf, callCipher, callRetries, isCreateCall, h1]

/-- Which process exits one iteration of the getopt switch can produce:
the help listing arises only from an a or b option whose argument misses
the registry and is the string help, the version banner only from the v
option; every other exit is usage. -/
theorem procOpt_error_kind (cp : String → Option pbkdf_prf_algo)
    (cc : String → Option tc_cipher_chain) (s : MainState) (o : CliOpt)
    (e : ExitKind) (h : procOpt cp cc s o = Except.error e) :
    (e = ExitKind.help_listing →
      (∃ a, o = CliOpt.a_opt a ∧ cp a = none ∧ a = "help") ∨
      (∃ b, o = CliOpt.b_opt b ∧ cc b = none ∧ b = "help")) ∧
    (e = ExitKind.version_banner → o = CliOpt.v_opt) := by
  cases o with
  | a_opt arg =>
      cases hp : s.prf with
      | some p0 =>
          simp only [procOpt, hp, Except.error.injEq] at h
          subst h
          exact ⟨by simp, by simp⟩
      | none =>
          cases hc : cp arg with
          | some p => simp [procOpt, hp, hc] at h
          | none =>
              simp only [procOpt, hp, hc] at h
              split at h
              · simp only [Except.error.injEq] at h
                subst h
                refine ⟨fun _ => Or.inl ⟨arg, rfl, hc, ?_⟩, by simp⟩
                assumption
              · simp only [Except.error.injEq] at h
                subst h
                exact ⟨by simp, by simp⟩
  | b_opt arg =>
      cases hp : s.cipher_chain with
      | some q0 =>
          simp only [procOpt, hp, Except.error.injEq] at h
          subst h
          exact ⟨by simp, by simp⟩
      | none =>
          cases hc : cc arg with
          | some q => simp [procOpt, hp, hc] at h
          | none =>
              simp only [procOpt, hp, hc] at h
              split at h
              · simp only [Except.error.injEq] at h
                subst h
                refine ⟨fun _ => Or.inr ⟨arg, rfl, hc, ?_⟩, by simp⟩
                assumption
              · simp only [Except.error.injEq] at h
                subst h
                exact ⟨by simp, by simp⟩
  | c_opt => simp [procOpt] at h
  | d_opt arg => simp [procOpt] at h
  | e_opt => simp [procOpt] at h
  | f_opt arg => simp [procOpt] at h
  | g_opt => simp [procOpt] at h
  | i_opt => simp [procOpt] at h
  | k_opt arg => simp [procOpt] at h
  | m_opt arg => simp [procOpt] at h
  | s_opt arg => simp [procOpt] at h
  | v_opt =>
      simp only [procOpt, Except.error.injEq] at h
      subst h
      exact ⟨by simp, fun _ => rfl⟩
  | h_opt =>
      simp only [procOpt, Except.error.injEq] at h
      subst h
      exact ⟨by simp, by simp⟩
  | unknown_opt =>
      simp only [procOpt, Except.error.injEq] at h
      subst h
      exact ⟨by simp, by simp⟩

/-- Which process exits a whole run of the getopt loop can produce: the
help listing only when some a or b option among the events carries a
registry-missing argument equal to help, the version banner only when a
v option is among the events; every other exit is usage. -/
theorem runOpts_error_kind (cp : String → Option pbkdf_prf_algo)
    (cc : String → Option tc_cipher_chain) :
    ∀ (opts : List CliOpt) (s0 : MainState) (e : ExitKind),
    runOpts cp cc opts s0 = Except.error e →
    (e = ExitKind.help_listing →
      (∃ a, CliOpt.a_opt a ∈ opts ∧ cp a = none ∧ a = "help") ∨
      (∃ b, CliOpt.b_opt b ∈ opts ∧ cc b = none ∧ b = "help")) ∧
    (e = ExitKind.version_banner → CliOpt.v_opt ∈ opts) := by
  intro opts
  induction opts with
  | nil =>
      intro s0 e h
      simp [runOpts] at h
  | cons o rest ih =>
      intro s0 e h
      rw [runOpts] at h
      cases hstep : procOpt cp cc s0 o with
      | ok s1 =>
          rw [hstep] at h
          obtain ⟨ih1, ih2⟩ := ih s1 e h
          constructor
          · intro he
            rcases ih1 he with ⟨a, hmem, hcp, harg⟩ | ⟨b, hmem, hcc, harg⟩
            · exact Or.inl ⟨a, List.mem_cons_of_mem o hmem, hcp, harg⟩
            · exact Or.inr ⟨b, List.mem_cons_of_mem o hmem, hcc, harg⟩
          · intro he
            exact List.mem_cons_of_mem o (ih2 he)
      | error e0 =>
          rw [hstep] at h
          simp only [Except.error.injEq] at h
          subst h
          obtain ⟨p1, p2⟩ := procOpt_error_kind cp cc s0 o e0 hstep
          constructor
          · intro he
            rcases p1 he with ⟨a, ho, hcp, harg⟩ | ⟨b, ho, hcc, harg⟩
            · refine Or.inl ⟨a, ?_, hcp, harg⟩
              rw [ho]
              exact List.mem_cons_self _ _
            · refine Or.inr ⟨b, ?_, hcc, harg⟩
              rw [ho]
              exact List.mem_cons_self _ _
          · intro he
            rw [p2 he]
            exact List.mem_cons_self _ _

/-- An invocation that performs an engine call got there through a
successful option loop, a passed argument check, and the dispatch. -/
theorem mainCall_some (cp : String → Option pbkdf_prf_algo)
    (cc : String → Option tc_cipher_chain) (opts : List CliOpt)
    (c : EngineCall) (h : mainCall cp cc opts = some c) :
    ∃ s, runOpts cp cc opts initState = Except.ok s ∧
      argsValid s = true ∧ dispatch s = some c := by
  unfold mainCall at h
  cases hr : runOpts cp cc opts initState with
  | error e => rw [hr] at h; simp at h
  | ok s =>
      rw [hr] at h
      change (if argsValid s = true then dispatch s else none) = some c at h
      by_cases hv : argsValid s = true
      · rw [if_pos hv] at h
        exact ⟨s, rfl, hv, h⟩
      · rw [if_neg hv] at h
        simp at h

/- Claim theorems. -/

/-- C1: once a hidden-volume header has been decrypted at byte offset H,
every write to the outer mapping at offset at least H is rejected as a
benign I/O error (a total function result, never a crash) and the disk is
untouched; every write strictly below H is applied unmodified; and when no
hidden header decrypted, every write is applied unmodified. -/
theorem claim_C1_hidden_volume_write_protection (m : OuterMapping)
    (hoff off val : Nat) :
    (m.protected_offset = some hoff →
      (hoff ≤ off → hv_write m off val = (WriteResult.io_error, m)) ∧
      (off < hoff → hv_write m off val =
        (WriteResult.ok, { m with disk := m.disk.set off val }))) ∧
    (m.protected_offset = none →
      hv_write m off val =
        (WriteResult.ok, { m with disk := m.disk.set off val })) := by
  refine ⟨fun hp => ⟨fun hle => ?_, fun hlt => ?_⟩, fun hp => ?_⟩
  · simp [hv_write, hp, hle]
  · simp [hv_write, hp, Nat.not_le.mpr hlt]
  · simp [hv_write, hp]

theorem claim_C1_hidden_volume_write_protection_witness :
    hv_write mapping0 150 7 = (WriteResult.io_error, mapping0) ∧
    hv_write mapping0 50 7 =
      (WriteResult.ok, { mapping0 with disk := disk0.set 50 7 }) ∧
    hv_write mapping1 150 7 =
      (WriteResult.ok, { mapping1 with disk := disk0.set 150 7 }) :=
  ⟨((claim_C1_hidden_volume_write_protection mapping0 100 150 7).1 rfl).1
      (by decide),
   ((claim_C1_hidden_volume_write_protection mapping0 100 50 7).1 rfl).2
      (by decide),
   (claim_C1_hidden_volume_write_protection mapping1 0 150 7).2 rfl⟩

/-- C2: for every valid volume header and every (PRF, cipher cascade)
pair used to encode it, decoding the encoded raw header bytes with the
same pair yields exactly the header back, and the unused reserved region
of the encoded fixed-order layout is zero-filled. -/
theorem claim_C2_header_codec_roundtrip (prf : pbkdf_prf_algo)
    (chain : tc_cipher_chain) (h : VolumeHeader)
    (hv : validHeader h = true) :
    decodeHeader prf chain (encodeHeader prf chain h) = some h ∧
    (serializeHeader h).drop RESERVED_OFF = List.replicate RESERVED_LEN 0 := by
  constructor
  · rw [decodeHeader, encodeHeader, xorStream_xorStream]
    exact deserialize_serialize h hv
  · have hv' := hv
    simp only [validHeader, Bool.and_eq_true, decide_eq_true_eq] at hv'
    exact serialize_reserved h hv'.1.2

theorem claim_C2_header_codec_roundtrip_witness :
    decodeHeader prf0 chain0 (encodeHeader prf0 chain0 hdr0) = some hdr0 ∧
    (serializeHeader hdr0).drop RESERVED_OFF =
      List.replicate RESERVED_LEN 0 :=
  claim_C2_header_codec_roundtrip prf0 chain0 hdr0 (by decide)

/-- C3: for every invocation whose arguments pass validation, exactly one
engine operation is invoked (mainCall yields exactly one call), and the
value main returns is exactly the result code of that operation, whatever
the engine returns. -/
theorem claim_C3_single_dispatch_and_return (cp : String → Option pbkdf_prf_algo)
    (cc : String → Option tc_cipher_chain) (engine : EngineCall → Int)
    (opts : List CliOpt) (s : MainState)
    (hrun : runOpts cp cc opts initState = Except.ok s)
    (hvalid : argsValid s = true) :
    ∃ c, mainCall cp cc opts = some c ∧
      tc_main cp cc engine opts = Except.ok (engine c) := by
  obtain ⟨-, hmodes, -⟩ := argsValid_spec s hvalid
  have hdisp : ∃ c, dispatch s = some c := by
    unfold dispatch
    by_cases hc : s.create_vol = true
    · rw [if_pos hc]
      exact ⟨_, rfl⟩
    · rw [if_neg hc]
      by_cases hi : s.info_vol = true
      · rw [if_pos hi]
        exact ⟨_, rfl⟩
      · rw [if_neg hi]
        have hm : s.map_vol = true := by
          rcases hmodes with h1 | h1 | h1
          · exact h1
          · exact absurd h1 hi
          · exact absurd h1 hc
        rw [if_pos hm]
        exact ⟨_, rfl⟩
  obtain ⟨c, hcall⟩ := hdisp
  refine ⟨c, ?_, ?_⟩
  · unfold mainCall
    rw [hrun]
    change (if argsValid s = true then dispatch s else none) = some c
    rw [if_pos hvalid]
    exact hcall
  · unfold tc_main
    rw [hrun]
    change (if argsValid s = true then
      (match dispatch s with
       | some c => Except.ok (engine c)
       | none => Except.ok 0)
      else Except.error ExitKind.usage) = Except.ok (engine c)
    rw [if_pos hvalid, hcall]

theorem claim_C3_single_dispatch_and_return_witness :
    ∃ c, mainCall cpNone ccNone optsInfo = some c ∧
      tc_main cpNone ccNone engine0 optsInfo = Except.ok (engine0 c) :=
  claim_C3_single_dispatch_and_return cpNone ccNone engine0 optsInfo sInfo
    (by rfl) (by rfl)

/-- C4: whenever main invokes an engine operation, the device path is
present, exactly one of the create, info and map modes is selected, the
hidden flag only occurs in create mode, hidden keyfiles only with
protect-hidden or create mode, system encryption comes with a system
device, and map mode comes with a mapping name. -/
theorem claim_C4_engine_invocation_invariant (s : MainState)
    (hvalid : argsValid s = true) :
    s.dev ≠ none ∧
    ((s.create_vol = true ∧ s.info_vol = false ∧ s.map_vol = false) ∨
     (s.create_vol = false ∧ s.info_vol = true ∧ s.map_vol = false) ∨
     (s.create_vol = false ∧ s.info_vol = false ∧ s.map_vol = true)) ∧
    (s.contain_hidden = true → s.create_vol = true) ∧
    (0 < s.n_hkeyfiles → s.protect_hidden = true ∨ s.create_vol = true) ∧
    (s.sflag = true → s.sys_dev ≠ none) ∧
    (s.map_vol = true → s.map_name ≠ none) := by
  obtain ⟨hdev, hmodes, hmi, hmc, hci, hgh, hsf, hmn, hhk⟩ :=
    argsValid_spec s hvalid
  refine ⟨?_, ?_, hgh, hhk, ?_, ?_⟩
  · intro hn
    rw [hn] at hdev
    simp at hdev
  · rcases hmodes with h1 | h1 | h1
    · have h2 : s.create_vol = false := by
        cases hx : s.create_vol with
        | false => rfl
        | true => exact absurd ⟨h1, hx⟩ hmc
      have h3 : s.info_vol = false := by
        cases hx : s.info_vol with
        | false => rfl
        | true => exact absurd ⟨h1, hx⟩ hmi
      exact Or.inr (Or.inr ⟨h2, h3, h1⟩)
    · have h2 : s.create_vol = false := by
        cases hx : s.create_vol with
        | false => rfl
        | true => exact absurd ⟨hx, h1⟩ hci
      have h3 : s.map_vol = false := by
        cases hx : s.map_vol with
        | false => rfl
        | true => exact absurd ⟨hx, h1⟩ hmi
      exact Or.inr (Or.inl ⟨h2, h1, h3⟩)
    · have h2 : s.info_vol = false := by
        cases hx : s.info_vol with
        | false => rfl
        | true => exact absurd ⟨h1, hx⟩ hci
      have h3 : s.map_vol = false := by
        cases hx : s.map_vol with
        | false => rfl
        | true => exact absurd ⟨hx, h1⟩ hmc
      exact Or.inl ⟨h1, h2, h3⟩
  · intro hs hn
    have := hsf hs
    rw [hn] at this
    simp at this
  · intro hm hn
    have := hmn hm
    rw [hn] at this
    simp at this

theorem claim_C4_engine_invocation_invariant_witness :
    sInfo.dev ≠ none ∧
    (sInfo.create_vol = false ∧ sInfo.info_vol = true ∧
      sInfo.map_vol = false) :=
  ⟨(claim_C4_engine_invocation_invariant sInfo (by rfl)).1,
   by
    rcases (claim_C4_engine_invocation_invariant sInfo (by rfl)).2.1 with
      h | h | h
    · exact absurd h.1 (by decide)
    · exact h
    · exact absurd h.2.2 (by decide)⟩

/-- C5: the engine receives the keyfile list exactly in command-line
order: the i-th k option lands at index i-1 of the keyfile array and the
count equals the number of k options; likewise for the hidden keyfiles
from the f options. -/
theorem claim_C5_keyfile_order (cp : String → Option pbkdf_prf_algo)
    (cc : String → Option tc_cipher_chain) (opts : List CliOpt)
    (c : EngineCall) (h : mainCall cp cc opts = some c) :
    callKeyfiles c = kArgs opts ∧
    callNKeyfiles c = (kArgs opts).length ∧
    callHKeyfiles c = fArgs opts ∧
    callNHKeyfiles c = (fArgs opts).length := by
  obtain ⟨s, hrun, hvalid, hdisp⟩ := mainCall_some cp cc opts c h
  obtain ⟨k1, k2, k3, k4, -⟩ := runOpts_ok_spec cp cc opts initState s hrun
  obtain ⟨d1, d2, d3, d4, -⟩ := dispatch_spec s c hdisp
  refine ⟨?_, ?_, ?_, ?_⟩
  · rw [d1, k1]
    simp [initState]
  · rw [d2, k2]
    simp [initState]
  · rw [d3, k3]
    simp [initState]
  · rw [d4, k4]
    simp [initState]

theorem claim_C5_keyfile_order_witness :
    callKeyfiles infoCallK = kArgs optsInfoK ∧
    callNKeyfiles infoCallK = (kArgs optsInfoK).length ∧
    callHKeyfiles infoCallK = fArgs optsInfoK ∧
    callNHKeyfiles infoCallK = (fArgs optsInfoK).length :=
  claim_C5_keyfile_order cpNone ccNone optsInfoK infoCallK (by rfl)

/-- C6, counterexample to the claim as stated: in an info invocation the
a option is given with a name the registry lookup accepts, the invocation
reaches the engine, and yet the engine call carries no PRF selection at
all; the lookup result is silently dropped rather than passed on
(info_volume and map_volume take no PRF or cipher argument). -/
theorem claim_C6_counterexample :
    cpSHA shaName = some prf0 ∧
    mainCall cpSHA ccNone optsInfoA = some infoCallA ∧
    callPrf infoCallA = none ∧
    callPrf infoCallA ≠ some prf0 :=
  ⟨rfl, rfl, rfl, by simp [callPrf, infoCallA]⟩

/-- C6, amended: for create invocations the engine receives the null PRF
and cipher selection when the a and b options are omitted, and exactly
the registry entry returned by the lookup when they are given with an
accepted name; for info and map invocations the parsed selection is not
passed to the engine at all. -/
theorem claim_C6_prf_cipher_selection (cp : String → Option pbkdf_prf_algo)
    (cc : String → Option tc_cipher_chain) (opts : List CliOpt)
    (c : EngineCall) (h : mainCall cp cc opts = some c) :
    (isCreateCall c = true →
      ((∀ a, CliOpt.a_opt a ∉ opts) → callPrf c = none) ∧
      (∀ a, CliOpt.a_opt a ∈ opts →
        ∃ p, cp a = some p ∧ callPrf c = some p) ∧
      ((∀ b, CliOpt.b_opt b ∉ opts) → callCipher c = none) ∧
      (∀ b, CliOpt.b_opt b ∈ opts →
        ∃ q, cc b = some q ∧ callCipher c = some q)) ∧
    (isCreateCall c = false → callPrf c = none ∧ callCipher c = none) := by
  obtain ⟨s, hrun, hvalid, hdisp⟩ := mainCall_some cp cc opts c h
  obtain ⟨-, -, -, -, r5, r6, -, -, -, -, r11, r12⟩ :=
    runOpts_ok_spec cp cc opts initState s hrun
  obtain ⟨-, -, -, -, -, dc, dnc⟩ := dispatch_spec s c hdisp
  constructor
  · intro hcr
    obtain ⟨dprf, dcip, -⟩ := dc hcr
    refine ⟨?_, ?_, ?_, ?_⟩
    · intro hnone
      have h0 : countA opts = 0 := by
        rw [countA, List.countP_eq_zero]
        intro o ho hP
        cases o with
        | a_opt a => exact hnone a ho
        | _ => simp [isA] at hP
      rw [dprf, r5 h0]
      rfl
    · intro a ha
      obtain ⟨-, p, hcp, hs⟩ := r11 a ha
      exact ⟨p, hcp, by rw [dprf, hs]⟩
    · intro hnone
      have h0 : countB opts = 0 := by
        rw [countB, List.countP_eq_zero]
        intro o ho hP
        cases o with
        | b_opt b => exact hnone b ho
        | _ => simp [isB] at hP
      rw [dcip, r6 h0]
      rfl
    · intro b hb
      obtain ⟨-, q, hcq, hs⟩ := r12 b hb
      exact ⟨q, hcq, by rw [dcip, hs]⟩
  · intro hncr
    obtain ⟨dp, dq, -, -⟩ := dnc hncr
    exact ⟨dp, dq⟩

theorem claim_C6_prf_cipher_selection_witness :
    (∃ p, cpSHA shaName = some p ∧ callPrf createCallA = some p) ∧
    callCipher createCallA = none :=
  ⟨((claim_C6_prf_cipher_selection cpSHA ccNone optsCreateA createCallA
      rfl).1 rfl).2.1 shaName (by simp [optsCreateA]),
   ((claim_C6_prf_cipher_selection cpSHA ccNone optsCreateA createCallA
      rfl).1 rfl).2.2.1 (by intro b; simp [optsCreateA])⟩

/-- C7: every info or map invocation that reaches the engine passes the
fixed constant DEFAULT_RETRIES as the retry bound and enables interactive
mode. -/
theorem claim_C7_interactive_retry_bound (cp : String → Option pbkdf_prf_algo)
    (cc : String → Option tc_cipher_chain) (opts : List CliOpt)
    (c : EngineCall) (h : mainCall cp cc opts = some c) :
    callInteractive c = true ∧
    (isCreateCall c = false → callRetries c = some DEFAULT_RETRIES) := by
  obtain ⟨s, -, -, hdisp⟩ := mainCall_some cp cc opts c h
  obtain ⟨-, -, -, -, d5, -, dnc⟩ := dispatch_spec s c hdisp
  exact ⟨d5, fun hn => (dnc hn).2.2.1⟩

theorem claim_C7_interactive_retry_bound_witness :
    callInteractive infoCall0 = true ∧
    (isCreateCall infoCall0 = false →
      callRetries infoCall0 = some DEFAULT_RETRIES) :=
  claim_C7_interactive_retry_bound cpNone ccNone optsInfo infoCall0 (by rfl)

/-- C8: the signal handler applies the registered summary function
exactly once (the world becomes f w, not w and not f (f w)) precisely when
the signal is SIGUSR1 or SIGINFO and a summary function is registered; on
any other signal, or with none registered, it leaves the world alone. -/
theorem claim_C8_sig_handler_summary {α : Type} (sig : Nat) (f : α → α)
    (w : α) :
    ((sig = SIGUSR1 ∨ sig = SIGINFO) → sig_handler sig (some f) w = f w) ∧
    (¬(sig = SIGUSR1 ∨ sig = SIGINFO) → sig_handler sig (some f) w = w) ∧
    sig_handler sig (none : Option (α → α)) w = w := by
  refine ⟨fun hs => ?_, fun hs => ?_, ?_⟩
  · rw [sig_handler, if_pos ⟨hs, rfl⟩]
    rfl
  · rw [sig_handler, if_neg]
    rintro ⟨hs2, -⟩
    exact hs hs2
  · rw [sig_handler, if_neg]
    rintro ⟨-, hn⟩
    simp at hn

theorem claim_C8_sig_handler_summary_witness :
    sig_handler SIGUSR1 (some Nat.succ) 0 = 1 ∧
    sig_handler 2 (some Nat.succ) 0 = 0 ∧
    sig_handler SIGUSR1 (none : Option (Nat → Nat)) 5 = 5 :=
  ⟨(claim_C8_sig_handler_summary SIGUSR1 Nat.succ 0).1 (Or.inl rfl),
   (claim_C8_sig_handler_summary 2 Nat.succ 0).2.1 (by decide),
   (claim_C8_sig_handler_summary SIGUSR1 id 5).2.2⟩

theorem runOpts_k_opts (cp : String → Option pbkdf_prf_algo)
    (cc : String → Option tc_cipher_chain) (a : String) :
    ∀ (n : Nat) (s0 : MainState),
    runOpts cp cc (List.replicate n (CliOpt.k_opt a)) s0 =
      Except.ok { s0 with keyfiles := s0.keyfiles ++ List.replicate n a,
                          nkeyfiles := s0.nkeyfiles + n } := by
  intro n
  induction n with
  | zero =>
      intro s0
      simp [runOpts]
  | succ k ih =>
      intro s0
      simp only [List.replicate_succ, runOpts, procOpt]
      rw [ih]
      simp [List.replicate_succ, List.append_assoc]
      omega

/-- C9: the claim of in-bounds keyfile writes fails on the code: the
getopt loop stores keyfiles with no bound check, so an invocation with
MAX_KEYFILES + 1 k options is processed without rejection, the count
passed on exceeds MAX_KEYFILES, and the final store went to index
MAX_KEYFILES, one past the last valid index of the array. -/
theorem claim_C9_keyfile_bound_overflow :
    ∃ s, runOpts cpNone ccNone
        (List.replicate (MAX_KEYFILES + 1) (CliOpt.k_opt kf1)) initState =
        Except.ok s ∧
      s.nkeyfiles = MAX_KEYFILES + 1 ∧
      s.keyfiles.length = MAX_KEYFILES + 1 ∧
      MAX_KEYFILES < s.nkeyfiles := by
  refine ⟨_, runOpts_k_opts cpNone ccNone kf1 (MAX_KEYFILES + 1) initState,
    ?_, ?_, ?_⟩
  · show initState.nkeyfiles + (MAX_KEYFILES + 1) = MAX_KEYFILES + 1
    simp [initState]
  · show (initState.keyfiles ++
      List.replicate (MAX_KEYFILES + 1) kf1).length = MAX_KEYFILES + 1
    simp [initState]
  · show MAX_KEYFILES < initState.nkeyfiles + (MAX_KEYFILES + 1)
    simp [initState]

/-- C10, counterexample to the claim as stated: with the option events of
tc-play -a help -a SHA512 the a option appears twice, yet the process
terminates through the help listing with exit status 0, not through
usage(). -/
theorem claim_C10_counterexample :
    countA optsDupA = 2 ∧
    runOpts cpNone ccNone optsDupA initState =
      Except.error ExitKind.help_listing ∧
    ExitKind.help_listing ≠ ExitKind.usage :=
  ⟨rfl, rfl, by decide⟩

/-- C10, amended: whenever the a option or the b option appears more than
once, the process terminates during option processing, without invoking
any engine operation; the exit is through usage(), unless it is the help
listing, which can occur only when some a or b occurrence carries the
argument help and the registry lookup misses it, or the version banner,
which can occur only when a v option is among the events. -/
theorem claim_C10_duplicate_selection_no_engine
    (cp : String → Option pbkdf_prf_algo)
    (cc : String → Option tc_cipher_chain) (opts : List CliOpt)
    (hdup : 2 ≤ countA opts ∨ 2 ≤ countB opts) :
    mainCall cp cc opts = none ∧
    (∃ e, runOpts cp cc opts initState = Except.error e ∧
      (e = ExitKind.help_listing →
        (∃ a, CliOpt.a_opt a ∈ opts ∧ cp a = none ∧ a = "help") ∨
        (∃ b, CliOpt.b_opt b ∈ opts ∧ cc b = none ∧ b = "help")) ∧
      (e = ExitKind.version_banner → CliOpt.v_opt ∈ opts) ∧
      (e ≠ ExitKind.help_listing → e ≠ ExitKind.version_banner →
        e = ExitKind.usage)) := by
  have hfail : ∀ s, runOpts cp cc opts initState ≠ Except.ok s := by
    intro s hr
    obtain ⟨-, -, -, -, -, -, -, -, r9, r10, -, -⟩ :=
      runOpts_ok_spec cp cc opts initState s hr
    rcases hdup with h2 | h2
    · omega
    · omega
  constructor
  · unfold mainCall
    cases hr : runOpts cp cc opts initState with
    | error e => rfl
    | ok s => exact absurd hr (hfail s)
  · cases hr : runOpts cp cc opts initState with
    | error e =>
        obtain ⟨k1, k2⟩ := runOpts_error_kind cp cc opts initState e hr
        refine ⟨e, rfl, k1, k2, ?_⟩
        cases e <;> simp
    | ok s => exact absurd hr (hfail s)

theorem claim_C10_duplicate_selection_no_engine_witness :
    mainCall cpNone ccNone optsDupA = none ∧
    (∃ e, runOpts cpNone ccNone optsDupA initState = Except.error e ∧
      (e = ExitKind.help_listing →
        (∃ a, CliOpt.a_opt a ∈ optsDupA ∧ cpNone a = none ∧ a = "help") ∨
        (∃ b, CliOpt.b_opt b ∈ optsDupA ∧ ccNone b = none ∧ b = "help")) ∧
      (e = ExitKind.version_banner → CliOpt.v_opt ∈ optsDupA) ∧
      (e ≠ ExitKind.help_listing → e ≠ ExitKind.version_banner →
        e = ExitKind.usage)) :=
  claim_C10_duplicate_selection_no_engine cpNone ccNone optsDupA
    (Or.inl (by decide))

end TCPlay
